import Mathlib

/-!
Verification development for an event / attendee / inventory management
program.  The program keeps four in-memory record stores (users, events,
inventory items, attendees), serializes each record to one comma-delimited
text line, and maintains quantity invariants between inventory items and
per-event allocation maps.

Strings are modelled as lists of characters (`Str`).  The C++ record
decoders read their input through a `std::stringstream`; the stream is
modelled faithfully by `Mstream` (remaining characters plus the eof and
fail bits) with `getlineD` mirroring `std::getline(ss, seg, delim)` and
`peekM` mirroring `ss.peek()`.  Machine `int` values are modelled as `Int`
(no quantity in the verified claims approaches the 32-bit range).
`std::map<int,int>` is modelled as a key-sorted association list.
-/

/-- C++ `std::string`, modelled as a list of characters. -/
abbrev Str := List Char

/-- The C++ helper `toLower` (maps `tolower` over the string). -/
def toLowerS (s : Str) : Str := s.map Char.toLower

/-- Splits off the segment before the first occurrence of `d`; returns the
segment and, when `d` occurs, the remainder after it. -/
def splitFirst (d : Char) : Str → Str × Option Str
  | [] => ([], none)
  | c :: cs =>
    if c = d then ([], some cs)
    else
      let r := splitFirst d cs
      (c :: r.1, r.2)

/-- State of a `std::stringstream` being read: remaining characters, the
eofbit and the failbit (badbit never arises here). -/
structure Mstream where
  rem : Str
  eofb : Bool
  failb : Bool
deriving DecidableEq

/-- `ss.good()`: no eofbit and no failbit. -/
def Mstream.good (s : Mstream) : Bool := !s.eofb && !s.failb

/-- `std::getline(ss, seg, d)`.  A stream that is already at eof or failed
extracts nothing and sets the failbit; otherwise characters are read up to
the delimiter (which is consumed) or to end-of-input (which sets the
eofbit); reading from an exhausted stream sets eofbit and failbit. -/
def getlineD (s : Mstream) (d : Char) : Str × Mstream :=
  if s.eofb || s.failb then ([], { s with failb := true })
  else if s.rem = [] then ([], { rem := [], eofb := true, failb := true })
  else
    match splitFirst d s.rem with
    | (seg, some rest) => (seg, { rem := rest, eofb := false, failb := false })
    | (seg, none) => (seg, { rem := [], eofb := true, failb := false })

/-- `ss.peek()`: on a stream that is not good the sentry sets the failbit
and EOF (`none`) is returned; at end-of-input the eofbit is set and EOF is
returned; otherwise the next character is returned without consuming it. -/
def peekM (s : Mstream) : Option Char × Mstream :=
  if s.eofb || s.failb then (none, { s with failb := true })
  else
    match s.rem with
    | [] => (none, { s with eofb := true })
    | c :: _ => (some c, s)

/-- Value of a list of decimal digit characters (most significant first). -/
def digitsVal (l : Str) : Nat :=
  l.foldl (fun a c => a * 10 + (c.toNat - 48)) 0

/-- `std::stoi`: skips leading whitespace, accepts an optional sign, then
converts the longest prefix of decimal digits, ignoring any trailing
characters; `none` when no digits are found (`std::invalid_argument`).
Overflow (`std::out_of_range`) is not modelled; no value in the verified
claims approaches the 32-bit range. -/
def stoiM (s : Str) : Option Int :=
  let t := s.dropWhile (fun c =>
    c = ' ' || c = '\t' || c = '\n' || c = '\x0b' || c = '\x0c' || c = '\r')
  match t with
  | '-' :: rest =>
    let ds := rest.takeWhile Char.isDigit
    if ds = [] then none else some (-(digitsVal ds : Int))
  | '+' :: rest =>
    let ds := rest.takeWhile Char.isDigit
    if ds = [] then none else some ((digitsVal ds : Int))
  | rest =>
    let ds := rest.takeWhile Char.isDigit
    if ds = [] then none else some ((digitsVal ds : Int))

/-- Rendering of an `int` by `operator<<`: optional minus sign, then the
decimal digits. -/
def intToStr (i : Int) : Str :=
  if i < 0 then '-' :: (Nat.repr i.natAbs).data else (Nat.repr i.natAbs).data

/-- The segments produced by `while (getline(ss, seg, d))` over a
stringstream holding `s`: split on `d`, except that a single trailing
delimiter produces no final empty segment (the last `getline` fails). -/
def splitGo (d : Char) (acc : Str) : Str → List Str
  | [] => [acc.reverse]
  | c :: cs =>
    if c = d then acc.reverse :: (if cs = [] then [] else splitGo d [] cs)
    else splitGo d (c :: acc) cs

/-- Loop form of getline-splitting; an empty input yields no segments. -/
def splitSem (d : Char) (s : Str) : List Str :=
  if s = [] then [] else splitGo d [] s

/-- Joins segments with a separator (used by the event encoders). -/
def joinSep (sep : Str) : List Str → Str
  | [] => []
  | [x] => x
  | x :: y :: xs => x ++ sep ++ joinSep sep (y :: xs)

/-! ### Association-list model of `std::map<int,int>` -/

/-- `m.find(k)` on the association list: value at the first matching key. -/
def mlook (m : List (Int × Int)) (k : Int) : Option Int :=
  match m with
  | [] => none
  | (k', v) :: rest => if k = k' then some v else mlook rest k

/-- `m[k] += v` with `operator[]` default-inserting `0`: the key-sorted
insertion a `std::map` performs. -/
def mapAdd (m : List (Int × Int)) (k v : Int) : List (Int × Int) :=
  match m with
  | [] => [(k, v)]
  | (k', v') :: rest =>
    if k < k' then (k, v) :: (k', v') :: rest
    else if k = k' then (k', v' + v) :: rest
    else (k', v') :: mapAdd rest k v

/-- `it->second = v` on the entry with key `k` (first matching entry). -/
def mset (m : List (Int × Int)) (k v : Int) : List (Int × Int) :=
  match m with
  | [] => []
  | (k', v') :: rest =>
    if k = k' then (k', v) :: rest else (k', v') :: mset rest k v

/-- `m.erase(it)` for the entry with key `k` (first matching entry). -/
def mdel (m : List (Int × Int)) (k : Int) : List (Int × Int) :=
  match m with
  | [] => []
  | (k', v') :: rest =>
    if k = k' then rest else (k', v') :: mdel rest k

/-- Representation invariant of `std::map<int,int>`: keys strictly
increasing (hence unique). -/
def MapWF (m : List (Int × Int)) : Prop :=
  m.Pairwise (fun a b => a.1 < b.1)

instance : DecidablePred MapWF := fun m =>
  List.instDecidablePairwise m

/-! ### Entity records -/

/-- Role of a concrete user object: `User` is abstract and only `Admin`
and `RegularUser` are ever constructed (ordinals 0 and 1 of the `Role`
enum; ordinal 2, `NONE`, never reaches a stored record). -/
inductive URole where
  | admin
  | regular
deriving DecidableEq

/-- A `User` record: id, username, password, role. -/
structure UserRec where
  userId : Int
  username : Str
  password : Str
  role : URole
deriving DecidableEq

/-- An `Attendee` record. -/
structure Attendee where
  attendeeId : Int
  name : Str
  contactInfo : Str
  eventIdRegisteredFor : Int
  isCheckedIn : Bool
deriving DecidableEq

/-- An `InventoryItem` record. -/
structure InventoryItem where
  itemId : Int
  name : Str
  totalQuantity : Int
  allocatedQuantity : Int
  description : Str
deriving DecidableEq

/-- An `Event` record.  `status` carries the integer value of the
`EventStatus` enum (0 UPCOMING, 1 ONGOING, 2 COMPLETED, 3 CANCELED;
`static_cast` from a parsed int preserves any value).  `allocatedInventory`
is the key-sorted association list modelling `std::map<int,int>`. -/
structure Event where
  eventId : Int
  name : Str
  date : Str
  time : Str
  location : Str
  description : Str
  category : Str
  status : Int
  attendeeIds : List Int
  allocatedInventory : List (Int × Int)
deriving DecidableEq

/-! ### Codecs (toString / fromString) -/

/-- `User::toString`. -/
def UserRec.toString (u : UserRec) : Str :=
  intToStr u.userId ++ [','] ++ u.username ++ [','] ++ u.password ++ [',']
    ++ intToStr (match u.role with | .admin => 0 | .regular => 1)

/-- `User::fromString`: rejects lines with fewer than three commas, then
reads id, username, password and role ordinal; a failed `stoi` or a role
ordinal other than 0/1 yields `none` (the line is skipped). -/
def UserRec.fromString (str : Str) : Option UserRec :=
  if str = [] || str.count ',' < 3 then none
  else
    let s0 : Mstream := ⟨str, false, false⟩
    let r1 := getlineD s0 ','
    match stoiM r1.1 with
    | none => none
    | some id =>
      let r2 := getlineD r1.2 ','
      let r3 := getlineD r2.2 ','
      let r4 := getlineD r3.2 ','
      match stoiM r4.1 with
      | none => none
      | some roleInt =>
        if roleInt = 0 then some ⟨id, r2.1, r3.1, .admin⟩
        else if roleInt = 1 then some ⟨id, r2.1, r3.1, .regular⟩
        else none

/-- `Attendee::toString`. -/
def Attendee.toString (a : Attendee) : Str :=
  intToStr a.attendeeId ++ [','] ++ a.name ++ [','] ++ a.contactInfo ++ [',']
    ++ intToStr a.eventIdRegisteredFor ++ [',']
    ++ (if a.isCheckedIn then ['1'] else ['0'])

/-- The sentinel attendee `Attendee(0, "ERROR", "ERROR", 0, false)` the
decoder returns for a malformed line. -/
def Attendee.errA : Attendee := ⟨0, "ERROR".data, "ERROR".data, 0, false⟩

/-- `Attendee::fromString`: five comma fields; a failed `stoi` returns the
sentinel record. -/
def Attendee.fromString (str : Str) : Attendee :=
  let s0 : Mstream := ⟨str, false, false⟩
  let r1 := getlineD s0 ','
  match stoiM r1.1 with
  | none => Attendee.errA
  | some id =>
    let r2 := getlineD r1.2 ','
    let r3 := getlineD r2.2 ','
    let r4 := getlineD r3.2 ','
    match stoiM r4.1 with
    | none => Attendee.errA
    | some eventId =>
      let r5 := getlineD r4.2 ','
      ⟨id, r2.1, r3.1, eventId, r5.1 = ['1']⟩

/-- `InventoryItem::toString`. -/
def InventoryItem.toString (it : InventoryItem) : Str :=
  intToStr it.itemId ++ [','] ++ it.name ++ [','] ++ intToStr it.totalQuantity
    ++ [','] ++ intToStr it.allocatedQuantity ++ [','] ++ it.description

/-- The sentinel item `InventoryItem(0, "ERROR", 0, 0, "ERROR")` the
decoder returns for a malformed line. -/
def InventoryItem.errItem : InventoryItem := ⟨0, "ERROR".data, 0, 0, "ERROR".data⟩

/-- `InventoryItem::fromString`: four comma fields, then the rest of the
line as the description; a failed `stoi` returns the sentinel record. -/
def InventoryItem.fromString (str : Str) : InventoryItem :=
  let s0 : Mstream := ⟨str, false, false⟩
  let r1 := getlineD s0 ','
  match stoiM r1.1 with
  | none => InventoryItem.errItem
  | some id =>
    let r2 := getlineD r1.2 ','
    let r3 := getlineD r2.2 ','
    match stoiM r3.1 with
    | none => InventoryItem.errItem
    | some totalQty =>
      let r4 := getlineD r3.2 ','
      match stoiM r4.1 with
      | none => InventoryItem.errItem
      | some allocQty =>
        let r5 := getlineD r4.2 '\n'
        ⟨id, r2.1, totalQty, allocQty, r5.1⟩

/-- `Event::attendeesToString`: semicolon-joined attendee ids. -/
def Event.attendeesToString (e : Event) : Str :=
  joinSep [';'] (e.attendeeIds.map intToStr)

/-- `Event::inventoryToString`: semicolon-joined `itemId:quantity` pairs in
map (key) order. -/
def Event.inventoryToString (e : Event) : Str :=
  joinSep [';'] (e.allocatedInventory.map fun kv =>
    intToStr kv.1 ++ [':'] ++ intToStr kv.2)

/-- `Event::toString`. -/
def Event.toString (e : Event) : Str :=
  intToStr e.eventId ++ [','] ++ e.name ++ [','] ++ e.date ++ [','] ++ e.time
    ++ [','] ++ e.location ++ [','] ++ e.description ++ [','] ++ e.category
    ++ [','] ++ intToStr e.status ++ [','] ++ e.attendeesToString ++ [',']
    ++ e.inventoryToString

/-- Parses the attendee-id field: each non-empty semicolon segment goes
through an unguarded `stoi` (`event.attendeeIds.push_back(stoi(attIdStr))`
sits outside the try-block), so a segment without digits terminates the
program — modelled as `none`. -/
def parseAttendeeIds (s : Str) : Option (List Int) :=
  (splitSem ';' s).foldl
    (fun acc seg =>
      match acc with
      | none => none
      | some l =>
        if seg = [] then some l
        else match stoiM seg with
          | none => none
          | some v => some (l ++ [v]))
    (some [])

/-- Parses the allocation field: for each non-empty semicolon segment that
contains a colon, both sides go through `stoi` inside a try-block, so a
failure merely skips the segment; on success the map entry is assigned. -/
def parseInventoryPairs (s : Str) : List (Int × Int) :=
  (splitSem ';' s).foldl
    (fun m seg =>
      if seg = [] then m
      else match splitFirst ':' seg with
        | (_, none) => m
        | (a, some b) =>
          match stoiM a, stoiM b with
          | some k, some v =>
            match mlook m k with
            | some _ => mset m k v
            | none => mapAdd m k v
          | _, _ => m)
    []

/-- `Event::fromString`.  Eight comma fields are read, then the decoder
checks `ss.peek() == ','` — but the comma after the status field was
already consumed by the preceding `getline`, so the check actually looks at
the first character of the attendee field.  The result is `none` in two
situations that abort the program rather than produce a record: the
catch-branch `Event(0, "ERROR", ...)` passes the literal `0` to a
`std::string` parameter, constructing a string from a null pointer
(undefined behaviour, a crash under libstdc++), and the attendee-id `stoi`
sits outside the try-block, so a non-numeric attendee segment throws an
uncaught exception. -/
def Event.fromString (str : Str) : Option Event :=
  let s0 : Mstream := ⟨str, false, false⟩
  let r1 := getlineD s0 ','
  match stoiM r1.1 with
  | none => none
  | some id =>
    let r2 := getlineD r1.2 ','
    let r3 := getlineD r2.2 ','
    let r4 := getlineD r3.2 ','
    let r5 := getlineD r4.2 ','
    let r6 := getlineD r5.2 ','
    let r7 := getlineD r6.2 ','
    let r8 := getlineD r7.2 ','
    match stoiM r8.1 with
    | none => none
    | some statN =>
      let p1 := peekM r8.2
      let ar : Str × Mstream :=
        if p1.1 = some ',' then
          let rc := getlineD p1.2 ','
          let p2 := peekM rc.2
          if p2.1 ≠ some ',' && p2.2.good then getlineD p2.2 ','
          else ([], p2.2)
        else ([], p1.2)
      let iv : Str :=
        if ar.2.good then
          let p3 := peekM ar.2
          if p3.1 ≠ none then (getlineD p3.2 '\n').1 else []
        else []
      match parseAttendeeIds ar.1 with
      | none => none
      | some attIds =>
        some ⟨id, r2.1, r3.1, r4.1, r5.1, r6.1, r7.1, statN,
              attIds, parseInventoryPairs iv⟩

/-! ### Load loops (`System::loadUsers` etc.): each non-empty line of the
file is decoded; `loadUsers` skips lines whose decode returns null, while
the attendee and inventory loaders push whatever record the decoder
returns, sentinel or not.  `loadEvents` pushes every decoded event; a line
whose decode aborts the program aborts the whole load (`none`). -/

/-- `System::loadUsers`. -/
def loadUsers (lines : List Str) : List UserRec :=
  (lines.filter (fun l => decide (l ≠ []))).filterMap UserRec.fromString

/-- `System::loadAttendees`. -/
def loadAttendees (lines : List Str) : List Attendee :=
  (lines.filter (fun l => decide (l ≠ []))).map Attendee.fromString

/-- `System::loadInventory`. -/
def loadInventory (lines : List Str) : List InventoryItem :=
  (lines.filter (fun l => decide (l ≠ []))).map InventoryItem.fromString

/-- `System::loadEvents`. -/
def loadEvents : List Str → Option (List Event)
  | [] => some []
  | l :: ls =>
    if l = [] then loadEvents ls
    else
      match Event.fromString l with
      | none => none
      | some e => (loadEvents ls).map (fun es => e :: es)

/-! ### Record operations -/

/-- Updates the first element satisfying `p` in place (the effect of
finding a record by a `find`-style helper and mutating it through the
returned pointer). -/
def updFirst (p : α → Bool) (f : α → α) : List α → List α
  | [] => []
  | x :: xs => if p x then f x :: xs else x :: updFirst p f xs

/-- `InventoryItem::getAvailableQuantity`. -/
def InventoryItem.getAvailableQuantity (it : InventoryItem) : Int :=
  it.totalQuantity - it.allocatedQuantity

/-- `InventoryItem::allocate`: rejects non-positive quantities and
quantities above the available amount; otherwise adds to
`allocatedQuantity`.  Returns the success flag with the updated record. -/
def InventoryItem.allocate (it : InventoryItem) (q : Int) : Bool × InventoryItem :=
  if q ≤ 0 then (false, it)
  else if q ≤ it.getAvailableQuantity then
    (true, { it with allocatedQuantity := it.allocatedQuantity + q })
  else (false, it)

/-- `InventoryItem::deallocate`: rejects non-positive quantities and
quantities above `allocatedQuantity`; otherwise subtracts. -/
def InventoryItem.deallocate (it : InventoryItem) (q : Int) : Bool × InventoryItem :=
  if q ≤ 0 then (false, it)
  else if q ≤ it.allocatedQuantity then
    (true, { it with allocatedQuantity := it.allocatedQuantity - q })
  else (false, it)

/-- `InventoryItem::setTotalQuantity`: rejected when negative or below the
allocated amount. -/
def InventoryItem.setTotalQuantity (it : InventoryItem) (nt : Int) : InventoryItem :=
  if nt < 0 then it
  else if nt < it.allocatedQuantity then it
  else { it with totalQuantity := nt }

/-- `Event::addAttendee`: appends the id unless already present. -/
def Event.addAttendee (e : Event) (attId : Int) : Event :=
  if e.attendeeIds.contains attId then e
  else { e with attendeeIds := e.attendeeIds ++ [attId] }

/-- `Event::removeAttendee`: erases the first occurrence of the id. -/
def Event.removeAttendee (e : Event) (attId : Int) : Event :=
  { e with attendeeIds := e.attendeeIds.erase attId }

/-- `Event::allocateInventoryItem`: for positive quantities,
`allocatedInventory[itmId] += quantity`. -/
def Event.allocateInventoryItem (e : Event) (itmId q : Int) : Event :=
  if 0 < q then { e with allocatedInventory := mapAdd e.allocatedInventory itmId q }
  else e

/-- `Event::deallocateInventoryItem`: the amount actually removed is
`min(recorded, requested)`; an entry driven to zero (or below) is erased.
Returns the actual amount with the updated event. -/
def Event.deallocateInventoryItem (e : Event) (itmId q : Int) : Int × Event :=
  if q ≤ 0 then (0, e)
  else
    match mlook e.allocatedInventory itmId with
    | none => (0, e)
    | some cur =>
      let actual := min cur q
      if cur - actual ≤ 0 then
        (actual, { e with allocatedInventory := mdel e.allocatedInventory itmId })
      else
        (actual, { e with allocatedInventory := mset e.allocatedInventory itmId (cur - actual) })

/-- The allocation half of `System::trackInventoryAllocationToEvent`
(choice 1), after the event and item lookups succeeded: `item->allocate`
followed, on success, by `event->allocateInventoryItem(item->itemId, qty)`.
Returns the success flag with the updated item and event. -/
def trackAllocate (itm : InventoryItem) (ev : Event) (qty : Int) :
    Bool × InventoryItem × Event :=
  let r := itm.allocate qty
  if r.1 then (true, r.2, ev.allocateInventoryItem itm.itemId qty)
  else (false, itm, ev)

/-- The deallocation half of `System::trackInventoryAllocationToEvent`
(choice 2), after the lookups: when the event's map has no entry for the
item it returns unchanged; otherwise `event->deallocateInventoryItem`
computes the clamped amount and, when positive, `item->deallocate` mirrors
it onto the item. -/
def trackDeallocate (itm : InventoryItem) (ev : Event) (qty : Int) :
    InventoryItem × Event :=
  match mlook ev.allocatedInventory itm.itemId with
  | none => (itm, ev)
  | some _ =>
    let r := ev.deallocateInventoryItem itm.itemId qty
    if 0 < r.1 then ((itm.deallocate r.1).2, r.2) else (itm, ev)

/-! ### System state and operations -/

/-- The mutable state of the `System` singleton that the verified
operations touch.  `nextAttendeeId` mirrors the static id counter used
when a registration constructs a fresh `Attendee`. -/
structure SysState where
  users : List UserRec
  currentUser : Option UserRec
  events : List Event
  inventory : List InventoryItem
  attendees : List Attendee
  nextAttendeeId : Int
deriving DecidableEq

/-- Post-load reconciliation core: `item.allocatedQuantity = 0`. -/
def zeroAlloc (it : InventoryItem) : InventoryItem :=
  { it with allocatedQuantity := 0 }

/-- One allocation-map entry applied to the store:
`findInventoryItemById(k)` and, when found, `allocatedQuantity += v`. -/
def addAlloc (k v : Int) (its : List InventoryItem) : List InventoryItem :=
  updFirst (fun it => it.itemId == k) (fun it => { it with allocatedQuantity := it.allocatedQuantity + v }) its

/-- All of one event's allocation-map entries applied to the store. -/
def applyEventAlloc (its : List InventoryItem) (e : Event) : List InventoryItem :=
  e.allocatedInventory.foldl (fun acc kv => addAlloc kv.1 kv.2 acc) its

/-- The post-load reconciliation pass in `System::loadData`: zero every
item's `allocatedQuantity`, then add every event's allocation-map entries
back onto the (first) item with the matching id. -/
def reconcileFromEvents (its : List InventoryItem) (events : List Event) :
    List InventoryItem :=
  events.foldl applyEventAlloc (its.map zeroAlloc)

/-- `System::trackInventoryAllocationToEvent`, choice 1 (allocate):
event and item lookups, then `trackAllocate`, written back through the
pointers (i.e. onto the first records with the matching ids). -/
def allocateToEventOp (s : SysState) (evId itmId qty : Int) : SysState :=
  match s.events.find? (fun e => e.eventId == evId) with
  | none => s
  | some _ =>
    match s.inventory.find? (fun it => it.itemId == itmId) with
    | none => s
    | some itm =>
      if (itm.allocate qty).1 then
        { s with
          inventory := updFirst (fun it => it.itemId == itmId)
            (fun it => (it.allocate qty).2) s.inventory,
          events := updFirst (fun e => e.eventId == evId)
            (fun e => e.allocateInventoryItem itm.itemId qty) s.events }
      else s

/-- `System::trackInventoryAllocationToEvent`, choice 2 (deallocate). -/
def deallocFromEventOp (s : SysState) (evId itmId qty : Int) : SysState :=
  match s.events.find? (fun e => e.eventId == evId) with
  | none => s
  | some ev =>
    match s.inventory.find? (fun it => it.itemId == itmId) with
    | none => s
    | some itm =>
      match mlook ev.allocatedInventory itmId with
      | none => s
      | some _ =>
        let actual := (ev.deallocateInventoryItem itm.itemId qty).1
        if 0 < actual then
          { s with
            events := updFirst (fun e => e.eventId == evId)
              (fun e => (e.deallocateInventoryItem itm.itemId qty).2) s.events,
            inventory := updFirst (fun it => it.itemId == itmId)
              (fun it => (it.deallocate actual).2) s.inventory }
        else s

/-- `System::updateInventoryItemDetails`, choice 2: look the item up and
call `setTotalQuantity` through the pointer. -/
def setTotalOp (s : SysState) (itmId nt : Int) : SysState :=
  match s.inventory.find? (fun it => it.itemId == itmId) with
  | none => s
  | some _ =>
    { s with
      inventory := updFirst (fun it => it.itemId == itmId)
        (fun it => it.setTotalQuantity nt) s.inventory }

/-- Placeholder event used as the (never relevant) default of `getD`. -/
def dfltEvent : Event := ⟨0, [], [], [], [], [], [], 0, [], []⟩

/-- A moved-from `Event` under libstdc++ move semantics: the string,
vector and map members are left empty, the scalar members (`eventId`,
`status`) are copied and keep their values. -/
def huskEvent (e : Event) : Event :=
  { e with name := [], date := [], time := [], location := [],
           description := [], category := [],
           attendeeIds := [], allocatedInventory := [] }

/-- `System::deleteEvent`.  `std::remove_if` compacts the kept events
forward and returns an iterator `it` to the new end; the code then reads
`it->allocatedInventory` to return the allocations to the pool.  The slot
at `it` holds the matched event itself only when no kept event followed it;
otherwise it holds the moved-from remains of the last kept event (strings
and containers empty).  Afterwards the attendees registered for the event
are removed and the tail is erased. -/
def deleteEventOp (s : SysState) (evId : Int) : SysState :=
  match s.events.findIdx? (fun e => e.eventId == evId) with
  | none => s
  | some i =>
    let keptSuffix := (s.events.drop (i + 1)).filter (fun e => !(e.eventId == evId))
    let slot := s.events.getD (i + keptSuffix.length) dfltEvent
    let obs := if slot.eventId == evId then slot else huskEvent slot
    let inventory' := obs.allocatedInventory.foldl
      (fun inv kv => updFirst (fun it => it.itemId == kv.1)
        (fun it => (it.deallocate kv.2).2) inv) s.inventory
    { s with
      events := s.events.take i ++ keptSuffix,
      inventory := inventory',
      attendees := s.attendees.filter (fun a => !(a.eventIdRegisteredFor == evId)) }

/-- Outcome reported by a check-in attempt. -/
inductive CheckInRes where
  | checkedInNow
  | alreadyCheckedIn
  | notFound
deriving DecidableEq

/-- `System::checkInAttendeeForEvent` combined with `Attendee::checkIn`:
the attendee must exist and be registered for the given event; the flag is
then set (setting an already-set flag reports "already checked in"). -/
def checkInAttendeeForEvent (s : SysState) (evId attId : Int) :
    SysState × CheckInRes :=
  match s.events.find? (fun e => e.eventId == evId) with
  | none => (s, .notFound)
  | some _ =>
    match s.attendees.find? (fun a => a.attendeeId == attId) with
    | none => (s, .notFound)
    | some att =>
      if att.eventIdRegisteredFor == evId then
        ({ s with
           attendees := updFirst (fun a => a.attendeeId == attId)
             (fun a => { a with isCheckedIn := true }) s.attendees },
         if att.isCheckedIn then .alreadyCheckedIn else .checkedInNow)
      else (s, .notFound)

/-- `System::registerAttendeeForEvent`: only a logged-in regular user may
register; the event must exist and not be CANCELED (3) or COMPLETED (2).
An attendee with the same (case-insensitive) name already tied to the
event is reused; else a generic profile (event id 0) is reused with its
contact info updated; else a fresh `Attendee` is created.  In each case
the event's attendee-id list gains the id (idempotently). -/
def registerAttendeeForEvent (s : SysState) (evId : Int) (contact : Str) : SysState :=
  match s.currentUser with
  | none => s
  | some cu =>
    if cu.role = URole.admin then s
    else
      match s.events.find? (fun e => e.eventId == evId) with
      | none => s
      | some ev =>
        if ev.status == 3 || ev.status == 2 then s
        else
          match s.attendees.find? (fun a =>
              toLowerS a.name == toLowerS cu.username && a.eventIdRegisteredFor == evId) with
          | some att =>
            { s with
              events := updFirst (fun e => e.eventId == evId)
                (fun e => e.addAttendee att.attendeeId) s.events }
          | none =>
            match s.attendees.find? (fun a =>
                toLowerS a.name == toLowerS cu.username && a.eventIdRegisteredFor == 0) with
            | some g =>
              { s with
                attendees := updFirst (fun a =>
                    toLowerS a.name == toLowerS cu.username && a.eventIdRegisteredFor == 0)
                  (fun a => { a with contactInfo := contact }) s.attendees,
                events := updFirst (fun e => e.eventId == evId)
                  (fun e => e.addAttendee g.attendeeId) s.events }
            | none =>
              { s with
                attendees := s.attendees ++
                  [⟨s.nextAttendeeId, cu.username, contact, evId, false⟩],
                events := updFirst (fun e => e.eventId == evId)
                  (fun e => e.addAttendee s.nextAttendeeId) s.events,
                nextAttendeeId := s.nextAttendeeId + 1 }

/-- `System::cancelOwnRegistration`: the attendee matching the current
user's name and the event id is removed from the event's id list and
deleted from the master attendee store. -/
def cancelOwnRegistration (s : SysState) (evId : Int) : SysState :=
  match s.currentUser with
  | none => s
  | some cu =>
    if cu.role = URole.admin then s
    else
      match s.events.find? (fun e => e.eventId == evId) with
      | none => s
      | some _ =>
        match s.attendees.find? (fun a =>
            toLowerS a.name == toLowerS cu.username && a.eventIdRegisteredFor == evId) with
        | none => s
        | some att =>
          { s with
            events := updFirst (fun e => e.eventId == evId)
              (fun e => e.removeAttendee att.attendeeId) s.events,
            attendees := s.attendees.filter (fun a => !(a.attendeeId == att.attendeeId)) }

/-- `System::deleteUserAccount`: deleting the currently logged-in user's
own username is refused; otherwise every user with the username is
removed. -/
def deleteUserAccount (s : SysState) (uname : Str) : SysState :=
  match s.currentUser with
  | some cu =>
    if cu.username = uname then s
    else { s with users := s.users.filter (fun u => !(u.username == uname)) }
  | none => { s with users := s.users.filter (fun u => !(u.username == uname)) }

/-- The user-initiated operations the verified claims quantify over. -/
inductive Step where
  | alloc (evId itmId qty : Int)
  | dealloc (evId itmId qty : Int)
  | setTotal (itmId newTotal : Int)
  | delEvent (evId : Int)
  | checkIn (evId attId : Int)
  | register (evId : Int) (contact : Str)
  | cancel (evId : Int)
  | delUser (uname : Str)

/-- Effect of one operation on the system state. -/
def applyStep (st : Step) (s : SysState) : SysState :=
  match st with
  | .alloc evId itmId qty => allocateToEventOp s evId itmId qty
  | .dealloc evId itmId qty => deallocFromEventOp s evId itmId qty
  | .setTotal itmId nt => setTotalOp s itmId nt
  | .delEvent evId => deleteEventOp s evId
  | .checkIn evId attId => (checkInAttendeeForEvent s evId attId).1
  | .register evId contact => registerAttendeeForEvent s evId contact
  | .cancel evId => cancelOwnRegistration s evId
  | .delUser uname => deleteUserAccount s uname

/-- `s'` is reachable from `s` by some sequence of operations. -/
def Reachable (s s' : SysState) : Prop :=
  ∃ l : List Step, s' = l.foldl (fun a st => applyStep st a) s

/-! ### Claim C1: serialization round trip -/

/-- A perfectly ordinary event: no delimiter characters in any string
field, one registered attendee, empty allocation map. -/
def evC1 : Event :=
  ⟨1, "Party".data, "2025-01-01".data, "10:00".data, "Hall".data,
   "Fun".data, "Social".data, 0, [7], []⟩

/-- C1: the round-trip claim fails on `Event`.  The encoded line of
`evC1` is `1,Party,2025-01-01,10:00,Hall,Fun,Social,0,7,`; decoding it
loses the attendee list entirely: after the status field's `getline` has
already consumed the following comma, the decoder's `ss.peek() == ','`
test inspects the first character of the attendee data, concludes there is
no attendee field, and swallows the attendee data into the inventory
string (where `7,` contains no colon and is dropped).  Decode of encode
therefore returns the event with `attendeeIds = []` instead of `[7]`. -/
theorem thmC1 :
    Event.fromString (Event.toString evC1) = some { evC1 with attendeeIds := [] }
      ∧ evC1.attendeeIds = [7]
      ∧ Event.fromString (Event.toString evC1) ≠ some evC1 := by
  decide

/-! ### Claim C6: event-deletion cascade -/

/-- Store for C6: event 1 (4 units of item 1 allocated, attendees 1 and 2
registered) followed by event 2; item 1 has `allocatedQuantity = 4`. -/
def sC6 : SysState :=
  ⟨[], none,
   [⟨1, "E".data, "d".data, "t".data, "l".data, "de".data, "c".data, 0, [1, 2], [(1, 4)]⟩,
    ⟨2, "F".data, "d".data, "t".data, "l".data, "de".data, "c".data, 0, [], []⟩],
   [⟨1, "X".data, 10, 4, "d".data⟩],
   [⟨1, "a1".data, "c".data, 1, false⟩, ⟨2, "a2".data, "c".data, 1, false⟩,
    ⟨3, "b".data, "c".data, 2, false⟩],
   4⟩

/-- C6: deleting event 1 — which is not the last element of the event
store — removes its attendees and the event itself, but item 1's
`allocatedQuantity` stays 4 instead of decreasing by the 4 units the event
had allocated: `deleteEvent` reads `it->allocatedInventory` after
`std::remove_if` has moved the surviving event forward, so it observes the
moved-from (empty) map and returns nothing to the pool. -/
theorem thmC6 :
    (deleteEventOp sC6 1).attendees = [⟨3, "b".data, "c".data, 2, false⟩]
      ∧ (deleteEventOp sC6 1).events
          = [⟨2, "F".data, "d".data, "t".data, "l".data, "de".data, "c".data, 0, [], []⟩]
      ∧ (deleteEventOp sC6 1).inventory = [⟨1, "X".data, 10, 4, "d".data⟩] := by
  decide

/-! ### Lemmas about the association-list map -/

theorem mlook_eq_none_of_ne (m : List (Int × Int)) (k : Int)
    (h : ∀ p ∈ m, p.1 ≠ k) : mlook m k = none := by
  induction m with
  | nil => rfl
  | cons hd tl ih =>
    obtain ⟨k', v'⟩ := hd
    have hk : k ≠ k' := fun he => (h (k', v') (List.mem_cons_self _ _)) he.symm
    simp only [mlook, if_neg hk]
    exact ih (fun p hp => h p (List.mem_cons_of_mem _ hp))

theorem mlook_mapAdd_self (m : List (Int × Int)) (k v : Int) (hwf : MapWF m) :
    mlook (mapAdd m k v) k = some ((mlook m k).getD 0 + v) := by
  induction m with
  | nil =>
    show mlook [(k, v)] k = some ((mlook [] k).getD 0 + v)
    simp [mlook]
  | cons hd tl ih =>
    obtain ⟨k', v'⟩ := hd
    simp only [MapWF, List.pairwise_cons] at hwf
    by_cases h1 : k < k'
    · have hk : k ≠ k' := ne_of_lt h1
      have htl : mlook tl k = none :=
        mlook_eq_none_of_ne tl k (fun p hp => ne_of_gt (lt_trans h1 (hwf.1 p hp)))
      simp [mapAdd, h1, mlook, hk, htl]
    · by_cases h2 : k = k'
      · subst h2
        simp [mapAdd, h1, mlook]
      · simp only [mapAdd, if_neg h1, if_neg h2, mlook, if_neg h2]
        exact ih hwf.2

theorem mlook_mset_self (m : List (Int × Int)) (k v cur : Int)
    (h : mlook m k = some cur) : mlook (mset m k v) k = some v := by
  induction m with
  | nil => simp [mlook] at h
  | cons hd tl ih =>
    obtain ⟨k', v'⟩ := hd
    by_cases h2 : k = k'
    · subst h2
      simp [mset, mlook]
    · simp only [mlook, if_neg h2] at h
      simp only [mset, if_neg (fun he : k = k' => h2 he), mlook, if_neg h2]
      exact ih h

theorem mlook_mdel_self (m : List (Int × Int)) (k : Int) (hwf : MapWF m) :
    mlook (mdel m k) k = none := by
  induction m with
  | nil => rfl
  | cons hd tl ih =>
    obtain ⟨k', v'⟩ := hd
    simp only [MapWF, List.pairwise_cons] at hwf
    by_cases h2 : k = k'
    · subst h2
      simp only [mdel, if_pos rfl]
      exact mlook_eq_none_of_ne tl k (fun p hp => ne_of_gt (hwf.1 p hp))
    · simp only [mdel, if_neg (fun he : k = k' => h2 he), mlook, if_neg h2]
      exact ih hwf.2

/-! ### Claim C4: allocation success condition and effect -/

/-- C4: `trackAllocate` succeeds iff `0 < qty` and `qty` does not exceed
the item's available quantity; on success the item's `allocatedQuantity`
and the event's map entry for the item each grow by exactly `qty`; on
failure both sides are returned unchanged.  The hypothesis is the
`std::map` representation invariant (strictly increasing keys). -/
theorem thmC4 (itm : InventoryItem) (ev : Event) (qty : Int)
    (hwf : MapWF ev.allocatedInventory) :
    ((trackAllocate itm ev qty).1 = true ↔
        0 < qty ∧ qty ≤ itm.totalQuantity - itm.allocatedQuantity)
      ∧ ((trackAllocate itm ev qty).1 = true →
          (trackAllocate itm ev qty).2.1.allocatedQuantity
              = itm.allocatedQuantity + qty
            ∧ (mlook (trackAllocate itm ev qty).2.2.allocatedInventory itm.itemId).getD 0
              = (mlook ev.allocatedInventory itm.itemId).getD 0 + qty)
      ∧ ((trackAllocate itm ev qty).1 = false →
          (trackAllocate itm ev qty).2.1 = itm ∧ (trackAllocate itm ev qty).2.2 = ev) := by
  by_cases h1 : qty ≤ 0
  · have hne : ¬ (0 < qty ∧ qty ≤ itm.totalQuantity - itm.allocatedQuantity) := by
      rintro ⟨h, _⟩; omega
    simp [trackAllocate, InventoryItem.allocate, h1, hne]
  · by_cases h2 : qty ≤ itm.getAvailableQuantity
    · have h2' : qty ≤ itm.totalQuantity - itm.allocatedQuantity := h2
      have h0 : (0 : Int) < qty := by omega
      have ht : trackAllocate itm ev qty
          = (true, { itm with allocatedQuantity := itm.allocatedQuantity + qty },
             { ev with allocatedInventory := mapAdd ev.allocatedInventory itm.itemId qty }) := by
        simp [trackAllocate, InventoryItem.allocate, Event.allocateInventoryItem, h1, h2, h0]
      rw [ht]
      refine ⟨by simpa using ⟨h0, h2'⟩, fun _ => ⟨rfl, ?_⟩, by simp⟩
      show (mlook (mapAdd ev.allocatedInventory itm.itemId qty) itm.itemId).getD 0
        = (mlook ev.allocatedInventory itm.itemId).getD 0 + qty
      rw [mlook_mapAdd_self _ _ _ hwf]
      simp
    · have h2' : ¬ qty ≤ itm.totalQuantity - itm.allocatedQuantity := h2
      have hne : ¬ (0 < qty ∧ qty ≤ itm.totalQuantity - itm.allocatedQuantity) := by
        rintro ⟨_, h⟩; exact h2' h
      simp [trackAllocate, InventoryItem.allocate, h1, h2, hne]

/-- Concrete item for the C4 witness. -/
def itmW : InventoryItem := ⟨1, "Chairs".data, 10, 3, "ch".data⟩

/-- Concrete event for the C4 witness (one unrelated map entry). -/
def evW : Event :=
  ⟨6, "E".data, "d".data, "t".data, "l".data, "de".data, "c".data, 0, [], [(2, 1)]⟩

/-- C4 witness: allocating 5 of an item with 7 available succeeds. -/
theorem witC4 :
    MapWF evW.allocatedInventory ∧ (trackAllocate itmW evW 5).1 = true := by
  refine ⟨by decide, ?_⟩
  exact (thmC4 itmW evW 5 (by decide)).1.mpr (by decide)

/-! ### Claim C5: deallocation clamping -/

/-- Item for the C5 counterexample: only 2 units allocated in total. -/
def itmD : InventoryItem := ⟨1, "X".data, 10, 2, "d".data⟩

/-- Event for the C5 counterexample: its map records 5 allocated units of
item 1 — more than the item's own `allocatedQuantity` (a drifted state the
reconciliation pass can itself produce from crafted files). -/
def evD : Event :=
  ⟨1, "E".data, "d".data, "t".data, "l".data, "de".data, "c".data, 0, [], [(1, 5)]⟩

/-- C5 counterexample: with 5 recorded on the event and 2 on the item,
requesting 10 removes the event's entry (clamped amount 5) but the item's
`allocatedQuantity` stays 2 — it does not decrease by the clamped amount 5
as the claim requires, because `InventoryItem::deallocate` refuses amounts
above its own `allocatedQuantity` and then silently does nothing. -/
theorem cexC5 :
    mlook (trackDeallocate itmD evD 10).2.allocatedInventory 1 = none
      ∧ (trackDeallocate itmD evD 10).1.allocatedQuantity = 2
      ∧ itmD.allocatedQuantity - min 10 5 ≠ 2 := by
  decide

/-- C5 (amended): when additionally the clamped amount `min qty a` does
not exceed the item's `allocatedQuantity` — which the cross-entity
invariant guarantees — deallocation removes exactly `min qty a` units: the
event's entry decreases by that amount and is erased when it reaches zero,
and the item's `allocatedQuantity` decreases by the same amount. -/
theorem thmC5 (itm : InventoryItem) (ev : Event) (qty a : Int)
    (hwf : MapWF ev.allocatedInventory)
    (ha : mlook ev.allocatedInventory itm.itemId = some a)
    (hapos : 0 < a) (hq : 0 < qty)
    (hitem : min qty a ≤ itm.allocatedQuantity) :
    (trackDeallocate itm ev qty).1.allocatedQuantity
        = itm.allocatedQuantity - min qty a
      ∧ (a ≤ qty →
          mlook (trackDeallocate itm ev qty).2.allocatedInventory itm.itemId = none)
      ∧ (qty < a →
          mlook (trackDeallocate itm ev qty).2.allocatedInventory itm.itemId
            = some (a - qty)) := by
  have hq' : ¬ qty ≤ 0 := by omega
  have hmin : min a qty = min qty a := min_comm a qty
  have hminpos : 0 < min a qty := lt_min hapos hq
  by_cases hle : a ≤ qty
  · have hm1 : min a qty = a := min_eq_left hle
    have hz : a - min a qty ≤ 0 := by omega
    have hd : Event.deallocateInventoryItem ev itm.itemId qty
        = (a, { ev with allocatedInventory := mdel ev.allocatedInventory itm.itemId }) := by
      simp only [Event.deallocateInventoryItem, if_neg hq', ha]
      rw [if_pos hz, hm1]
    have ht : trackDeallocate itm ev qty
        = ((itm.deallocate a).2,
           { ev with allocatedInventory := mdel ev.allocatedInventory itm.itemId }) := by
      simp only [trackDeallocate, ha, hd]
      rw [if_pos (by omega : (0 : Int) < a)]
    rw [ht]
    have hia : a ≤ itm.allocatedQuantity := by omega
    have hna : ¬ a ≤ 0 := by omega
    have hdeal : (itm.deallocate a).2
        = { itm with allocatedQuantity := itm.allocatedQuantity - a } := by
      simp only [InventoryItem.deallocate]
      rw [if_neg hna, if_pos hia]
    rw [hdeal]
    refine ⟨by simp; omega, fun _ => ?_, fun hlt => absurd hle (by omega)⟩
    exact mlook_mdel_self _ _ hwf
  · have hlt : qty < a := by omega
    have hm1 : min a qty = qty := min_eq_right (by omega)
    have hz : ¬ a - min a qty ≤ 0 := by omega
    have hd : Event.deallocateInventoryItem ev itm.itemId qty
        = (qty,
           { ev with
             allocatedInventory := mset ev.allocatedInventory itm.itemId (a - qty) }) := by
      simp only [Event.deallocateInventoryItem, if_neg hq', ha]
      rw [if_neg hz, hm1]
    have ht : trackDeallocate itm ev qty
        = ((itm.deallocate qty).2,
           { ev with
             allocatedInventory := mset ev.allocatedInventory itm.itemId (a - qty) }) := by
      simp only [trackDeallocate, ha, hd]
      rw [if_pos hq]
    rw [ht]
    have hia : qty ≤ itm.allocatedQuantity := by omega
    have hdeal : (itm.deallocate qty).2
        = { itm with allocatedQuantity := itm.allocatedQuantity - qty } := by
      simp only [InventoryItem.deallocate]
      rw [if_neg hq', if_pos hia]
    rw [hdeal]
    refine ⟨by simp; omega, fun hle2 => absurd hle2 (by omega), fun _ => ?_⟩
    exact mlook_mset_self _ _ _ a ha

/-- Item for the C5 witness: 3 units allocated. -/
def itmE : InventoryItem := ⟨1, "X".data, 10, 3, "d".data⟩

/-- Event for the C5 witness: 3 units of item 1 recorded. -/
def evE : Event :=
  ⟨1, "E".data, "d".data, "t".data, "l".data, "de".data, "c".data, 0, [], [(1, 3)]⟩

/-- C5 witness (the spec's own example): 3 allocated, request 10 — exactly
3 removed, the entry deleted, and the item reduced by exactly 3. -/
theorem witC5 :
    (trackDeallocate itmE evE 10).1.allocatedQuantity
        = itmE.allocatedQuantity - min 10 3
      ∧ mlook (trackDeallocate itmE evE 10).2.allocatedInventory itmE.itemId = none := by
  have h := thmC5 itmE evE 10 3 (by decide) (by decide) (by decide) (by decide) (by decide)
  exact ⟨h.1, h.2.1 (by decide)⟩

/-! ### Claim C9: registration rejected for CANCELED or COMPLETED events -/

/-- C9: when the event found for the given id has status CANCELED (3) or
COMPLETED (2), a registration attempt returns the state unchanged — no
attendee record is created or modified and the event's attendee-id list is
untouched (the whole state is equal). -/
theorem thmC9 (s : SysState) (evId : Int) (contact : Str) (ev : Event)
    (hev : s.events.find? (fun e => e.eventId == evId) = some ev)
    (hst : ev.status = 3 ∨ ev.status = 2) :
    registerAttendeeForEvent s evId contact = s := by
  have hb : (ev.status == 3 || ev.status == 2) = true := by
    rcases hst with h | h <;> simp [h]
  cases hcu : s.currentUser with
  | none => simp [registerAttendeeForEvent, hcu]
  | some cu =>
    by_cases hr : cu.role = URole.admin
    · simp [registerAttendeeForEvent, hcu, hr]
    · simp [registerAttendeeForEvent, hcu, hr, hev, hb]

/-- Event for the C9 witness: status CANCELED. -/
def evK : Event :=
  ⟨3, "G".data, "d".data, "t".data, "l".data, "de".data, "c".data, 3, [], []⟩

/-- Regular user for the C9 and C10 witnesses. -/
def usrW : UserRec := ⟨5, "bob".data, "secret".data, .regular⟩

/-- State for the C9 witness: a logged-in regular user and one canceled
event. -/
def sK : SysState := ⟨[usrW], some usrW, [evK], [], [], 4⟩

/-- C9 witness: registering for the canceled event changes nothing. -/
theorem witC9 : registerAttendeeForEvent sK 3 "x".data = sK := by
  exact thmC9 sK 3 "x".data evK (by decide) (by decide)

/-! ### Claim C10: deleting a user account -/

/-- C10: deleting the currently logged-in user's username is always
refused (state unchanged, so the session cannot be left pointing at a
deleted record); for any other username every matching user record is
removed and the session is untouched. -/
theorem thmC10 (s : SysState) (uname : Str) :
    ((∃ cu, s.currentUser = some cu ∧ cu.username = uname) →
        deleteUserAccount s uname = s)
      ∧ ((∀ cu, s.currentUser = some cu → cu.username ≠ uname) →
          (deleteUserAccount s uname).users
              = s.users.filter (fun u => !(u.username == uname))
            ∧ (deleteUserAccount s uname).currentUser = s.currentUser) := by
  cases hcu : s.currentUser with
  | none =>
    refine ⟨fun ⟨cu, hc, _⟩ => by simp [hcu] at hc, fun _ => ?_⟩
    simp [deleteUserAccount, hcu]
  | some cu =>
    by_cases he : cu.username = uname
    · refine ⟨fun _ => by simp [deleteUserAccount, hcu, he], fun h => ?_⟩
      exact absurd he (h cu rfl)
    · refine ⟨fun ⟨cu2, hc2, he2⟩ => ?_, fun _ => by simp [deleteUserAccount, hcu, he]⟩
      cases hc2
      exact absurd he2 he

/-- Second user for the C10 witness. -/
def usrV : UserRec := ⟨6, "carol".data, "secret".data, .regular⟩

/-- State for the C10 witness: two users, `bob` logged in. -/
def sV : SysState := ⟨[usrW, usrV], some usrW, [], [], [], 1⟩

/-- C10 witness: deleting the logged-in `bob` is refused; deleting
`carol` removes exactly her record. -/
theorem witC10 :
    deleteUserAccount sV "bob".data = sV
      ∧ (deleteUserAccount sV "carol".data).users
          = sV.users.filter (fun u => !(u.username == "carol".data)) := by
  refine ⟨(thmC10 sV "bob".data).1 ⟨usrW, rfl, rfl⟩, ?_⟩
  exact ((thmC10 sV "carol".data).2 (by decide)).1

/-! ### Claim C7: loading a file with one malformed line -/

/-- The first comma-delimited segment of a line (the id field a decoder
reads first). -/
def firstSeg (s : Str) : Str := (getlineD ⟨s, false, false⟩ ',').1

theorem userFromString_badId (b : Str) (hb : stoiM (firstSeg b) = none) :
    UserRec.fromString b = none := by
  unfold UserRec.fromString
  split
  · rfl
  · simp only [firstSeg] at hb
    simp only [hb]

theorem attendeeFromString_badId (b : Str) (hb : stoiM (firstSeg b) = none) :
    Attendee.fromString b = Attendee.errA := by
  unfold Attendee.fromString
  simp only [firstSeg] at hb
  simp only [hb]

theorem itemFromString_badId (b : Str) (hb : stoiM (firstSeg b) = none) :
    InventoryItem.fromString b = InventoryItem.errItem := by
  unfold InventoryItem.fromString
  simp only [firstSeg] at hb
  simp only [hb]

theorem eventFromString_badId (b : Str) (hb : stoiM (firstSeg b) = none) :
    Event.fromString b = none := by
  unfold Event.fromString
  simp only [firstSeg] at hb
  simp only [hb]

/-- C7 counterexample: an attendee file with one well-formed line and one
line whose id is not an integer loads TWO records, not one: the malformed
line becomes the sentinel record `(0, "ERROR", "ERROR", 0, false)`, which
`loadAttendees` pushes into the store like any other record. -/
theorem cexC7 :
    (loadAttendees ["1,Al,c,0,0".data, "x,B,c,0,0".data]).length ≠ 1 := by
  decide

/-- C7 (amended): for `User` the malformed line is skipped and exactly the
well-formed record remains; for `Attendee` and `InventoryItem` the store
receives two records — the decoded well-formed one followed by the "ERROR"
sentinel; for `Event` the malformed line's recovery path constructs a
`std::string` from the null-pointer literal `0`, so the load aborts
(modelled as `none`) instead of yielding a store.  In no case is the
well-formed line lost. -/
theorem thmC7 (g b : Str) (u : UserRec)
    (hg : g ≠ []) (hb : b ≠ [])
    (hbid : stoiM (firstSeg b) = none)
    (hu : UserRec.fromString g = some u) :
    loadUsers [g, b] = [u]
      ∧ loadAttendees [g, b] = [Attendee.fromString g, Attendee.errA]
      ∧ loadInventory [g, b] = [InventoryItem.fromString g, InventoryItem.errItem]
      ∧ loadEvents [g, b] = none := by
  have hub := userFromString_badId b hbid
  have hab := attendeeFromString_badId b hbid
  have hib := itemFromString_badId b hbid
  have heb := eventFromString_badId b hbid
  refine ⟨?_, ?_, ?_, ?_⟩
  · simp [loadUsers, hg, hb, hu, hub]
  · simp [loadAttendees, hg, hb, hab]
  · simp [loadInventory, hg, hb, hib]
  · have h1 : loadEvents [b] = none := by
      simp [loadEvents, hb, heb]
    cases hfg : Event.fromString g <;> simp [loadEvents, hg, hb, hfg, heb, h1]

/-- C7 witness: a concrete well-formed user line and a line whose id field
is the non-numeric `x`. -/
theorem witC7 :
    loadUsers ["2,bob,secret,1".data, "x,B,c,0".data] = [⟨2, "bob".data, "secret".data, .regular⟩]
      ∧ loadEvents ["2,bob,secret,1".data, "x,B,c,0".data] = none := by
  have h := thmC7 ("2,bob,secret,1".data) ("x,B,c,0".data)
    ⟨2, "bob".data, "secret".data, .regular⟩ (by decide) (by decide) (by decide) (by decide)
  exact ⟨h.1, h.2.2.2⟩

/-! ### Claim C2: post-load reconciliation -/

theorem getD_mem (l : List α) (i : Nat) (h : i < l.length) (d : α) :
    l.getD i d ∈ l := by
  induction l generalizing i with
  | nil => simp at h
  | cons x xs ih =>
    cases i with
    | zero => simp
    | succ j =>
      simp only [List.getD_cons_succ]
      exact List.mem_cons_of_mem _ (ih j (by simpa using h))

theorem getD_map_of_lt (f : α → β) (l : List α) (i : Nat) (h : i < l.length)
    (d0 : β) (d1 : α) : (l.map f).getD i d0 = f (l.getD i d1) := by
  induction l generalizing i with
  | nil => simp at h
  | cons x xs ih =>
    cases i with
    | zero => simp
    | succ j => simpa using ih j (by simpa using h)

theorem updFirst_map_invar (p : α → Bool) (f : α → α) (g : α → β)
    (h : ∀ x, g (f x) = g x) (l : List α) :
    (updFirst p f l).map g = l.map g := by
  induction l with
  | nil => rfl
  | cons x xs ih =>
    by_cases hp : p x
    · simp [updFirst, hp, h]
    · simp [updFirst, hp, ih]

theorem updFirst_length (p : α → Bool) (f : α → α) (l : List α) :
    (updFirst p f l).length = l.length := by
  induction l with
  | nil => rfl
  | cons x xs ih =>
    by_cases hp : p x
    · simp [updFirst, hp]
    · simp [updFirst, hp, ih]

theorem addAlloc_map_itemId (k v : Int) (its : List InventoryItem) :
    (addAlloc k v its).map (fun it => it.itemId) = its.map (fun it => it.itemId) := by
  exact updFirst_map_invar (fun it => it.itemId == k)
    (fun it => { it with allocatedQuantity := it.allocatedQuantity + v })
    (fun it => it.itemId) (fun x => rfl) its

theorem addAlloc_getD (k v : Int) (its : List InventoryItem) (i : Nat)
    (hi : i < its.length) (hnd : (its.map (fun it => it.itemId)).Nodup)
    (d : InventoryItem) :
    (addAlloc k v its).getD i d
      = if (its.getD i d).itemId = k
        then { its.getD i d with
               allocatedQuantity := (its.getD i d).allocatedQuantity + v }
        else its.getD i d := by
  induction its generalizing i with
  | nil => simp at hi
  | cons x xs ih =>
    simp only [List.map_cons, List.nodup_cons] at hnd
    by_cases hxk : x.itemId = k
    · have hxs : ∀ y ∈ xs, y.itemId ≠ k := by
        intro y hy he
        exact hnd.1 (by rw [hxk, ← he]; exact List.mem_map_of_mem _ hy)
      cases i with
      | zero =>
        simp [addAlloc, updFirst, hxk]
      | succ j =>
        have hj : j < xs.length := by simpa using hi
        have hne : (xs.getD j d).itemId ≠ k := hxs _ (getD_mem xs j hj d)
        have hl : addAlloc k v (x :: xs)
            = { x with allocatedQuantity := x.allocatedQuantity + v } :: xs := by
          simp [addAlloc, updFirst, hxk]
        rw [hl, List.getD_cons_succ, List.getD_cons_succ, if_neg hne]
    · cases i with
      | zero =>
        simp [addAlloc, updFirst, hxk]
      | succ j =>
        have hj : j < xs.length := by simpa using hi
        have hl : addAlloc k v (x :: xs) = x :: addAlloc k v xs := by
          simp [addAlloc, updFirst, hxk]
        rw [hl, List.getD_cons_succ, List.getD_cons_succ]
        exact ih j hj hnd.2

/-- Sum of the values of the entries of `P` whose key is `k`. -/
def pairSum (P : List (Int × Int)) (k : Int) : Int :=
  (P.map (fun kv => if kv.1 = k then kv.2 else 0)).sum

theorem pairSum_nil (k : Int) : pairSum [] k = 0 := rfl

theorem pairSum_cons (kv : Int × Int) (P : List (Int × Int)) (k : Int) :
    pairSum (kv :: P) k = (if kv.1 = k then kv.2 else 0) + pairSum P k := by
  simp [pairSum]

theorem pairSum_eq_zero (P : List (Int × Int)) (k : Int)
    (h : ∀ p ∈ P, p.1 ≠ k) : pairSum P k = 0 := by
  induction P with
  | nil => rfl
  | cons kv rest ih =>
    rw [pairSum_cons, if_neg (h kv (List.mem_cons_self _ _)),
      ih (fun p hp => h p (List.mem_cons_of_mem _ hp))]
    ring

theorem pairSum_eq_mlook (P : List (Int × Int)) (k : Int)
    (hnd : (P.map Prod.fst).Nodup) : pairSum P k = (mlook P k).getD 0 := by
  induction P with
  | nil => rfl
  | cons kv rest ih =>
    obtain ⟨k', v'⟩ := kv
    simp only [List.map_cons, List.nodup_cons] at hnd
    by_cases h2 : k' = k
    · subst h2
      have hz : pairSum rest k' = 0 := by
        apply pairSum_eq_zero
        intro p hp he
        exact hnd.1 (by rw [← he]; exact List.mem_map_of_mem _ hp)
      rw [pairSum_cons, if_pos rfl, hz]
      simp [mlook]
    · rw [pairSum_cons, if_neg h2, ih hnd.2]
      have h2' : k ≠ k' := fun he => h2 he.symm
      simp [mlook, h2']

theorem foldAlloc_map_itemId (P : List (Int × Int)) (its : List InventoryItem) :
    ((P.foldl (fun a kv => addAlloc kv.1 kv.2 a) its).map (fun it => it.itemId))
      = its.map (fun it => it.itemId) := by
  induction P generalizing its with
  | nil => rfl
  | cons kv P' ih => rw [List.foldl_cons, ih, addAlloc_map_itemId]

theorem foldAlloc_length (P : List (Int × Int)) (its : List InventoryItem) :
    (P.foldl (fun a kv => addAlloc kv.1 kv.2 a) its).length = its.length := by
  have h := congrArg List.length (foldAlloc_map_itemId P its)
  simpa using h

theorem foldAlloc_getD_itemId (P : List (Int × Int)) (its : List InventoryItem)
    (i : Nat) (hi : i < its.length) (d : InventoryItem) :
    ((P.foldl (fun a kv => addAlloc kv.1 kv.2 a) its).getD i d).itemId
      = (its.getD i d).itemId := by
  have hlen : i < (P.foldl (fun a kv => addAlloc kv.1 kv.2 a) its).length := by
    rw [foldAlloc_length]; exact hi
  have h1 := getD_map_of_lt (fun it => it.itemId)
    (P.foldl (fun a kv => addAlloc kv.1 kv.2 a) its) i hlen d.itemId d
  have h2 := getD_map_of_lt (fun it => it.itemId) its i hi d.itemId d
  rw [← h1, foldAlloc_map_itemId, h2]

theorem foldAlloc_getD_alloc (P : List (Int × Int)) :
    ∀ (its : List InventoryItem) (i : Nat) (d : InventoryItem),
      i < its.length → (its.map (fun it => it.itemId)).Nodup →
      ((P.foldl (fun a kv => addAlloc kv.1 kv.2 a) its).getD i d).allocatedQuantity
        = (its.getD i d).allocatedQuantity + pairSum P ((its.getD i d).itemId) := by
  induction P with
  | nil => intro its i d hi _; simp [pairSum]
  | cons kv P' ih =>
    intro its i d hi hnd
    rw [List.foldl_cons]
    have hlen' : i < (addAlloc kv.1 kv.2 its).length := by
      have := updFirst_length (fun it => it.itemId == kv.1)
        (fun it => { it with allocatedQuantity := it.allocatedQuantity + kv.2 }) its
      simp only [addAlloc]
      omega
    have hnd' : ((addAlloc kv.1 kv.2 its).map (fun it => it.itemId)).Nodup := by
      rw [addAlloc_map_itemId]; exact hnd
    have hrec := ih (addAlloc kv.1 kv.2 its) i d hlen' hnd'
    rw [hrec, addAlloc_getD kv.1 kv.2 its i hi hnd d]
    by_cases hk : (its.getD i d).itemId = kv.1
    · rw [if_pos hk, pairSum_cons, if_pos hk.symm]
      simp only
      ring
    · rw [if_neg hk, pairSum_cons,
        if_neg (fun he : kv.1 = (its.getD i d).itemId => hk he.symm)]
      ring

/-- Sum over all events of the event's allocation-map entry for `k`
(0 when absent) — the quantity the claim says reconciliation restores. -/
def evSum (events : List Event) (k : Int) : Int :=
  (events.map (fun e => (mlook e.allocatedInventory k).getD 0)).sum

theorem evSum_cons (e : Event) (es : List Event) (k : Int) :
    evSum (e :: es) k = (mlook e.allocatedInventory k).getD 0 + evSum es k := by
  simp [evSum]

theorem mapWF_keys_nodup (m : List (Int × Int)) (h : MapWF m) :
    (m.map Prod.fst).Nodup := by
  exact List.Pairwise.map Prod.fst (fun a b hab => ne_of_lt hab) h

theorem foldEvents_getD (events : List Event) :
    ∀ (its : List InventoryItem) (i : Nat) (d : InventoryItem),
      i < its.length → (its.map (fun it => it.itemId)).Nodup →
      (∀ e ∈ events, MapWF e.allocatedInventory) →
      ((events.foldl applyEventAlloc its).getD i d).allocatedQuantity
        = (its.getD i d).allocatedQuantity + evSum events ((its.getD i d).itemId) := by
  induction events with
  | nil => intro its i d hi _ _; simp [evSum]
  | cons e es ih =>
    intro its i d hi hnd hwf
    rw [List.foldl_cons]
    have hlen' : i < (applyEventAlloc its e).length := by
      simp only [applyEventAlloc]
      rw [foldAlloc_length]; exact hi
    have hnd' : ((applyEventAlloc its e).map (fun it => it.itemId)).Nodup := by
      simp only [applyEventAlloc]
      rw [foldAlloc_map_itemId]; exact hnd
    have hrec := ih (applyEventAlloc its e) i d hlen' hnd'
      (fun e' he' => hwf e' (List.mem_cons_of_mem _ he'))
    rw [hrec]
    have hallo : ((applyEventAlloc its e).getD i d).allocatedQuantity
        = (its.getD i d).allocatedQuantity
          + pairSum e.allocatedInventory ((its.getD i d).itemId) := by
      simp only [applyEventAlloc]
      exact foldAlloc_getD_alloc e.allocatedInventory its i d hi hnd
    have hid : ((applyEventAlloc its e).getD i d).itemId = (its.getD i d).itemId := by
      simp only [applyEventAlloc]
      exact foldAlloc_getD_itemId e.allocatedInventory its i hi d
    rw [hallo, hid, evSum_cons,
      pairSum_eq_mlook _ _ (mapWF_keys_nodup _ (hwf e (List.mem_cons_self _ _)))]
    ring

/-- Placeholder item used as the (never relevant) default of `getD`. -/
def dfltItem : InventoryItem := ⟨0, [], 0, 0, []⟩

/-- C2 (amended): after the reconciliation pass, every item's
`allocatedQuantity` equals the sum over all events of the event's map
entry for the item's id (0 when absent), regardless of the
`allocatedQuantity` values read from the inventory file — PROVIDED no two
items in the store share an id.  The event-side hypothesis is only the
`std::map` representation invariant. -/
theorem thmC2 (items : List InventoryItem) (events : List Event)
    (hnd : (items.map (fun it => it.itemId)).Nodup)
    (hwf : ∀ e ∈ events, MapWF e.allocatedInventory)
    (i : Nat) (hi : i < items.length) :
    ((reconcileFromEvents items events).getD i dfltItem).allocatedQuantity
      = evSum events ((items.getD i dfltItem).itemId) := by
  unfold reconcileFromEvents
  have hlen : i < (items.map zeroAlloc).length := by simpa using hi
  have hmapid : (items.map zeroAlloc).map (fun it => it.itemId)
      = items.map (fun it => it.itemId) := by
    rw [List.map_map]; rfl
  have hnd' : ((items.map zeroAlloc).map (fun it => it.itemId)).Nodup := by
    rw [hmapid]; exact hnd
  rw [foldEvents_getD events (items.map zeroAlloc) i dfltItem hlen hnd' hwf]
  have hz : (items.map zeroAlloc).getD i dfltItem = zeroAlloc (items.getD i dfltItem) := by
    exact getD_map_of_lt zeroAlloc items i hi dfltItem dfltItem
  rw [hz]
  simp [zeroAlloc]

/-- Items for the C2 counterexample: two records sharing id 0 (exactly
what two malformed inventory lines produce — two ERROR sentinels), with
stale allocated quantities. -/
def itsC2 : List InventoryItem :=
  [⟨0, "a".data, 0, 9, []⟩, ⟨0, "b".data, 0, 9, []⟩]

/-- Events for the C2 counterexample: one event whose map allocates 5
units of item id 0. -/
def evsC2 : List Event :=
  [⟨1, "E".data, "d".data, "t".data, "l".data, "de".data, "c".data, 0, [], [(0, 5)]⟩]

/-- C2 counterexample: with two items sharing id 0, reconciliation adds
the event's 5 units only to the FIRST item (`findInventoryItemById`
returns the first match); the second item is zeroed and left at 0, while
the sum over events for its id is 5 — the claim fails for it. -/
theorem cexC2 :
    ((reconcileFromEvents itsC2 evsC2).getD 1 dfltItem).allocatedQuantity
      ≠ evSum evsC2 ((itsC2.getD 1 dfltItem).itemId) := by
  decide

/-- Items for the C2 witness (distinct ids, stale quantities). -/
def itsV : List InventoryItem :=
  [⟨1, "a".data, 10, 9, []⟩, ⟨2, "b".data, 10, 9, []⟩]

/-- Events for the C2 witness. -/
def evsV : List Event :=
  [⟨1, "E".data, "d".data, "t".data, "l".data, "de".data, "c".data, 0, [], [(1, 3)]⟩,
   ⟨2, "F".data, "d".data, "t".data, "l".data, "de".data, "c".data, 0, [], [(1, 4), (2, 5)]⟩]

/-- C2 witness: with distinct ids, item 1 is reconciled to 3 + 4 and item
2 to 5, whatever was read from the file. -/
theorem witC2 :
    ((reconcileFromEvents itsV evsV).getD 0 dfltItem).allocatedQuantity
      = evSum evsV ((itsV.getD 0 dfltItem).itemId) := by
  exact thmC2 itsV evsV (by decide) (by decide) 0 (by decide)

/-! ### Claim C3: the quantity invariant is preserved by every operation -/

/-- The per-item invariant: `0 ≤ allocatedQuantity ≤ totalQuantity`. -/
def InvI (it : InventoryItem) : Prop :=
  0 ≤ it.allocatedQuantity ∧ it.allocatedQuantity ≤ it.totalQuantity

instance : DecidablePred InvI := fun _ => instDecidableAnd

/-- The store-wide invariant: every item satisfies `InvI`. -/
def InvStore (l : List InventoryItem) : Prop := ∀ it ∈ l, InvI it

instance : DecidablePred InvStore := fun l => List.decidableBAll _ l

theorem allocate_invI (it : InventoryItem) (q : Int) (h : InvI it) :
    InvI (it.allocate q).2 := by
  obtain ⟨h1, h2⟩ := h
  unfold InventoryItem.allocate InventoryItem.getAvailableQuantity
  split
  · exact ⟨h1, h2⟩
  · split
    · constructor <;> simp <;> omega
    · exact ⟨h1, h2⟩

theorem deallocate_invI (it : InventoryItem) (q : Int) (h : InvI it) :
    InvI (it.deallocate q).2 := by
  obtain ⟨h1, h2⟩ := h
  unfold InventoryItem.deallocate
  split
  · exact ⟨h1, h2⟩
  · split
    · constructor <;> simp <;> omega
    · exact ⟨h1, h2⟩

theorem setTotal_invI (it : InventoryItem) (nt : Int) (h : InvI it) :
    InvI (it.setTotalQuantity nt) := by
  obtain ⟨h1, h2⟩ := h
  unfold InventoryItem.setTotalQuantity
  split
  · exact ⟨h1, h2⟩
  · split
    · exact ⟨h1, h2⟩
    · constructor <;> simp <;> omega

theorem updFirst_invStore (p : InventoryItem → Bool) (f : InventoryItem → InventoryItem)
    (l : List InventoryItem) (hf : ∀ x, InvI x → InvI (f x)) (hl : InvStore l) :
    InvStore (updFirst p f l) := by
  induction l with
  | nil => exact hl
  | cons x xs ih =>
    by_cases hp : p x
    · simp only [updFirst, if_pos hp]
      intro it hit
      rcases List.mem_cons.mp hit with h | h
      · exact h ▸ hf x (hl x (List.mem_cons_self _ _))
      · exact hl it (List.mem_cons_of_mem _ h)
    · simp only [updFirst, if_neg hp]
      intro it hit
      rcases List.mem_cons.mp hit with h | h
      · exact h ▸ hl x (List.mem_cons_self _ _)
      · exact ih (fun y hy => hl y (List.mem_cons_of_mem _ hy)) it h

theorem foldDealloc_invStore (pairs : List (Int × Int)) :
    ∀ (inv0 : List InventoryItem), InvStore inv0 →
      InvStore (pairs.foldl
        (fun inv kv => updFirst (fun it => it.itemId == kv.1)
          (fun it => (it.deallocate kv.2).2) inv) inv0) := by
  induction pairs with
  | nil => intro inv0 h; exact h
  | cons kv rest ih =>
    intro inv0 h
    rw [List.foldl_cons]
    exact ih _ (updFirst_invStore _ _ _ (fun x hx => deallocate_invI x kv.2 hx) h)

theorem applyStep_invStore (st : Step) (s : SysState) (h : InvStore s.inventory) :
    InvStore (applyStep st s).inventory := by
  cases st with
  | alloc evId itmId qty =>
    simp only [applyStep]
    unfold allocateToEventOp
    split
    · exact h
    · split
      · exact h
      · split
        · exact updFirst_invStore _ _ _ (fun x hx => allocate_invI x qty hx) h
        · exact h
  | dealloc evId itmId qty =>
    simp only [applyStep]
    unfold deallocFromEventOp
    split
    · exact h
    · split
      · exact h
      · split
        · exact h
        · dsimp only
          split
          · exact updFirst_invStore _ _ _ (fun x hx => deallocate_invI x _ hx) h
          · exact h
  | setTotal itmId nt =>
    simp only [applyStep]
    unfold setTotalOp
    split
    · exact h
    · exact updFirst_invStore _ _ _ (fun x hx => setTotal_invI x nt hx) h
  | delEvent evId =>
    simp only [applyStep]
    unfold deleteEventOp
    split
    · exact h
    · exact foldDealloc_invStore _ _ h
  | checkIn evId attId =>
    simp only [applyStep]
    unfold checkInAttendeeForEvent
    split
    · exact h
    · split
      · exact h
      · split
        · exact h
        · exact h
  | register evId contact =>
    simp only [applyStep]
    unfold registerAttendeeForEvent
    split
    · exact h
    · split
      · exact h
      · split
        · exact h
        · split
          · exact h
          · split
            · exact h
            · split
              · exact h
              · exact h
  | cancel evId =>
    simp only [applyStep]
    unfold cancelOwnRegistration
    split
    · exact h
    · split
      · exact h
      · split
        · exact h
        · split
          · exact h
          · exact h
  | delUser uname =>
    simp only [applyStep]
    unfold deleteUserAccount
    split
    · split
      · exact h
      · exact h
    · exact h

/-- C3: in every state reachable by the modelled operations (allocate,
deallocate, setTotalQuantity, event deletion — and also the check-in,
registration, cancellation and user-deletion operations, so a fortiori for
the four listed ones) from a state where every item satisfies
`0 ≤ allocatedQuantity ≤ totalQuantity`, every item still satisfies it. -/
theorem thmC3 (s s' : SysState) (hinv : InvStore s.inventory)
    (hr : Reachable s s') : InvStore s'.inventory := by
  obtain ⟨l, rfl⟩ := hr
  induction l generalizing s with
  | nil => exact hinv
  | cons st rest ih =>
    exact ih _ (applyStep_invStore st s hinv)

/-- State for the C3 witness: one event and one item (4 of 10 allocated). -/
def sW3 : SysState :=
  ⟨[], none,
   [⟨2, "F".data, "d".data, "t".data, "l".data, "de".data, "c".data, 0, [], []⟩],
   [⟨1, "X".data, 10, 4, "d".data⟩], [], 1⟩

/-- C3 witness: after allocating 3 more units to the event, the invariant
still holds. -/
theorem witC3 :
    InvStore sW3.inventory
      ∧ InvStore (applyStep (Step.alloc 2 1 3) sW3).inventory := by
  refine ⟨by decide, ?_⟩
  exact thmC3 sW3 (applyStep (Step.alloc 2 1 3) sW3) (by decide) ⟨[Step.alloc 2 1 3], rfl⟩

/-! ### Claim C8: one-way check-in flag -/

theorem updFirst_find?_fixed (p : α → Bool) (f : α → α) (l : List α) (a : α)
    (hf : l.find? p = some a) (hfix : f a = a) : updFirst p f l = l := by
  induction l with
  | nil => simp at hf
  | cons x xs ih =>
    by_cases hp : p x
    · rw [List.find?_cons_of_pos _ hp] at hf
      cases hf
      simp [updFirst, hp, hfix]
    · rw [List.find?_cons_of_neg _ hp] at hf
      simp [updFirst, hp, ih hf]

/-- C8.  First part: the effect of every modelled operation on the
attendee store has one of five shapes — unchanged; the first record
matching a predicate has its `isCheckedIn` set to `true`; a filter
(deletion of records, which are left intact); the first record matching a
predicate has only its `contactInfo` replaced; or a freshly created record
with `isCheckedIn = false` is appended.  None of these ever turns an
existing record's `isCheckedIn` from `true` to `false`, so the flag is
one-way.  Second part (idempotence): checking in an attendee who is
registered for the event and already checked in returns the state
literally unchanged together with the "already checked in" outcome. -/
theorem thmC8 :
    (∀ (st : Step) (s : SysState),
        (applyStep st s).attendees = s.attendees
          ∨ (∃ p : Attendee → Bool,
              (applyStep st s).attendees
                = updFirst p (fun a => { a with isCheckedIn := true }) s.attendees)
          ∨ (∃ p : Attendee → Bool,
              (applyStep st s).attendees = s.attendees.filter p)
          ∨ (∃ (p : Attendee → Bool) (c : Str),
              (applyStep st s).attendees
                = updFirst p (fun a => { a with contactInfo := c }) s.attendees)
          ∨ (∃ a : Attendee, a.isCheckedIn = false
              ∧ (applyStep st s).attendees = s.attendees ++ [a]))
      ∧ (∀ (s : SysState) (evId attId : Int) (att : Attendee),
          s.events.find? (fun e => e.eventId == evId) ≠ none →
          s.attendees.find? (fun a => a.attendeeId == attId) = some att →
          att.eventIdRegisteredFor = evId →
          att.isCheckedIn = true →
          checkInAttendeeForEvent s evId attId = (s, CheckInRes.alreadyCheckedIn)) := by
  constructor
  · intro st s
    cases st with
    | alloc evId itmId qty =>
      refine Or.inl ?_
      simp only [applyStep]
      unfold allocateToEventOp
      split
      · rfl
      · split
        · rfl
        · split <;> rfl
    | dealloc evId itmId qty =>
      refine Or.inl ?_
      simp only [applyStep]
      unfold deallocFromEventOp
      split
      · rfl
      · split
        · rfl
        · split
          · rfl
          · dsimp only
            split <;> rfl
    | setTotal itmId nt =>
      refine Or.inl ?_
      simp only [applyStep]
      unfold setTotalOp
      split <;> rfl
    | delEvent evId =>
      simp only [applyStep]
      unfold deleteEventOp
      split
      · exact Or.inl rfl
      · exact Or.inr (Or.inr (Or.inl ⟨_, rfl⟩))
    | checkIn evId attId =>
      simp only [applyStep]
      unfold checkInAttendeeForEvent
      split
      · exact Or.inl rfl
      · split
        · exact Or.inl rfl
        · split
          · exact Or.inr (Or.inl ⟨_, rfl⟩)
          · exact Or.inl rfl
    | register evId contact =>
      simp only [applyStep]
      unfold registerAttendeeForEvent
      split
      · exact Or.inl rfl
      · split
        · exact Or.inl rfl
        · split
          · exact Or.inl rfl
          · split
            · exact Or.inl rfl
            · split
              · exact Or.inl rfl
              · split
                · exact Or.inr (Or.inr (Or.inr (Or.inl ⟨_, _, rfl⟩)))
                · exact Or.inr (Or.inr (Or.inr (Or.inr ⟨_, rfl, rfl⟩)))
    | cancel evId =>
      simp only [applyStep]
      unfold cancelOwnRegistration
      split
      · exact Or.inl rfl
      · split
        · exact Or.inl rfl
        · split
          · exact Or.inl rfl
          · split
            · exact Or.inl rfl
            · exact Or.inr (Or.inr (Or.inl ⟨_, rfl⟩))
    | delUser uname =>
      refine Or.inl ?_
      simp only [applyStep]
      unfold deleteUserAccount
      split
      · split <;> rfl
      · rfl
  · intro s evId attId att hev hatt hreg hchk
    unfold checkInAttendeeForEvent
    cases hfe : s.events.find? (fun e => e.eventId == evId) with
    | none => exact absurd hfe hev
    | some e =>
      rw [hatt]
      have hbe : (att.eventIdRegisteredFor == evId) = true := by simp [hreg]
      dsimp only
      rw [if_pos hbe]
      have hfix : (fun a => { a with isCheckedIn := true }) att = att := by
        cases att
        simp only [Attendee.mk.injEq] at hchk ⊢
        simp [hchk]
      rw [updFirst_find?_fixed _ _ _ att hatt hfix, hchk]
      rfl

/-- Attendee for the C8 witness: registered for event 1, already checked
in. -/
def attW8 : Attendee := ⟨2, "a2".data, "c".data, 1, true⟩

/-- State for the C8 witness. -/
def sW8 : SysState :=
  ⟨[], none,
   [⟨1, "E".data, "d".data, "t".data, "l".data, "de".data, "c".data, 0, [2], []⟩],
   [], [attW8], 3⟩

/-- C8 witness: re-checking in the already-checked-in attendee 2 leaves
the state literally unchanged and reports "already checked in". -/
theorem witC8 :
    checkInAttendeeForEvent sW8 1 2 = (sW8, CheckInRes.alreadyCheckedIn) := by
  exact thmC8.2 sW8 1 2 attW8 (by decide) (by decide) (by decide) (by decide)
